import Mathlib

/-!
Verification development for the GamTools frequency-matrix cache engine
(GamTools/__init__.py).  The Python classes are shallowly embedded:

* a 2x2 contingency count is a function Fin 2 → Fin 2 → Int;
* the HDF5-backed frequency dataset of GamFrequencyMatrix is a total map
  Nat → Nat → ContingencyCount together with its declared size no_windows, and numpy
  slicing data[a:b] over nonnegative bounds is embedded by sliceIdx,
  which clamps exactly as numpy does;
* the pandas segregation table of GamExperimentalData is a list of sample
  rows, each row a map from window position to a presence value in Fin 2
  (the code indexes a 2x2 array with the cell values, so only 0/1 values
  execute without error);
* methods that mutate object state are state-passing functions returning
  the new object; Python exceptions become Except / Option results.
-/

/-- A 2x2 contingency count matrix, as produced by count_frequency. -/
abbrev ContingencyCount := Fin 2 → Fin 2 → Int

/-- cell.sum() on a 2x2 integer cell. -/
def contSum (c : ContingencyCount) : Int :=
  c 0 0 + c 0 1 + c 1 0 + c 1 1

/-- Indices selected by the numpy slice data[a:b] along an axis of
length n (nonnegative bounds clamp silently, no bounds error). -/
def sliceIdx (n a b : Nat) : List Nat :=
  ((List.range n).drop a).take (b - a)

/-- GamFrequencyMatrix: access to the (no_windows, no_windows, 2, 2)
frequencies dataset in the HDF5 store. -/
structure GamFrequencyMatrix where
  no_windows : Nat
  data : Nat → Nat → ContingencyCount

namespace GamFrequencyMatrix

/-- The block self.data[loc1_start:loc1_stop, loc2_start:loc2_stop]. -/
def data_block (m : GamFrequencyMatrix) (l1s l1e l2s l2e : Nat) : List (List ContingencyCount) :=
  (sliceIdx m.no_windows l1s l1e).map fun i =>
    (sliceIdx m.no_windows l2s l2e).map fun j => m.data i j

/-- any_empty: scan the sliced block and report True as soon as some
cell has zero sum (`if not cell.sum(): return True`). -/
def any_empty (m : GamFrequencyMatrix) (l1s l1e l2s l2e : Nat) : Bool :=
  (sliceIdx m.no_windows l1s l1e).any fun i =>
    (sliceIdx m.no_windows l2s l2e).any fun j => contSum (m.data i j) == 0

/-- get_matrix: None on a miss (some cell of the region has zero sum),
otherwise the stored block. -/
def get_matrix (m : GamFrequencyMatrix) (l1s l1e l2s l2e : Nat) :
    Option (List (List ContingencyCount)) :=
  if m.any_empty l1s l1e l2s l2e then none
  else some (m.data_block l1s l1e l2s l2e)

/-- cache_freqs: numpy assignment self.data[l1s:l1e, l2s:l2e] = freqs.
A position (i, j) lies in the written region exactly when both of its
coordinates are selected by the (clamped) slices; there it receives the
corresponding entry of freqs. -/
def cache_freqs (m : GamFrequencyMatrix) (l1s l1e l2s l2e : Nat)
    (freqs : List (List ContingencyCount)) : GamFrequencyMatrix :=
  { m with
    data := fun i j =>
      if l1s ≤ i ∧ i < min l1e m.no_windows ∧ l2s ≤ j ∧ j < min l2e m.no_windows then
        (freqs.getD (i - l1s) []).getD (j - l2s) (m.data i j)
      else m.data i j }

end GamFrequencyMatrix

/-- GamExperimentalData: the segmentation table recovered from the
store.  columns is the ordered list of (chromosome, window) column
labels; segregation is the list of sample rows, each giving the
presence value of every window position. -/
structure GamExperimentalData where
  columns : List (String × Nat)
  segregation : List (Nat → Fin 2)
  pseudocount : Int

namespace GamExperimentalData

/-- no_windows = len(self.data.columns). -/
def no_windows (d : GamExperimentalData) : Nat := d.columns.length

/-- One step of the counting loop: counts[s[0]][s[1]] += 1. -/
def bump (c : ContingencyCount) (s : Fin 2 × Fin 2) : ContingencyCount :=
  fun i j => if s.1 = i ∧ s.2 = j then c i j + 1 else c i j

/-- count_frequency: start from the zero 2x2 array, run
counts[s[0]][s[1]] += 1 over the samples, then return
counts + self.pseudocount (added to every cell). -/
def count_frequency (d : GamExperimentalData) (samples : List (Fin 2 × Fin 2)) : ContingencyCount :=
  fun i j => (samples.foldl bump fun _ _ => 0) i j + d.pseudocount

/-- get_location_frequency: restrict every sample row to the two window
positions of interest and run count_frequency. -/
def get_location_frequency (d : GamExperimentalData) (loc1 loc2 : Nat) : ContingencyCount :=
  d.count_frequency (d.segregation.map fun row => (row loc1, row loc2))

end GamExperimentalData

/-- GamExperiment: the segregation table together with the cached
frequency matrix from one store. -/
structure GamExperiment where
  experimental_data : GamExperimentalData
  freq_matrix : GamFrequencyMatrix

namespace GamExperiment

/-- calculate_loc_frequency_matrix: map get_location_frequency over the
cartesian product of the two (clamped) column ranges and reshape to
(len1, len2, 2, 2). -/
def calculate_loc_frequency_matrix (e : GamExperiment) (l1s l1e l2s l2e : Nat) :
    List (List ContingencyCount) :=
  (sliceIdx e.experimental_data.no_windows l1s l1e).map fun i =>
    (sliceIdx e.experimental_data.no_windows l2s l2e).map fun j =>
      e.experimental_data.get_location_frequency i j

/-- get_loc_frequency_matrix: cache-aside.  On a hit return the stored
block unchanged; on a miss compute the whole block, write it back with
cache_freqs, and return it together with the updated experiment. -/
def get_loc_frequency_matrix (e : GamExperiment) (l1s l1e l2s l2e : Nat) :
    List (List ContingencyCount) × GamExperiment :=
  match e.freq_matrix.get_matrix l1s l1e l2s l2e with
  | some freqs => (freqs, e)
  | none =>
    let freqs := e.calculate_loc_frequency_matrix l1s l1e l2s l2e
    (freqs, { e with freq_matrix := e.freq_matrix.cache_freqs l1s l1e l2s l2e freqs })

end GamExperiment

section SliceLemmas

theorem sliceIdx_length (n a b : Nat) :
    (sliceIdx n a b).length = min (b - a) (n - a) := by
  simp [sliceIdx]

theorem sliceIdx_getElem (n a b : Nat) (k : Nat) (hk : k < (sliceIdx n a b).length) :
    (sliceIdx n a b)[k] = a + k := by
  have hk' := hk
  rw [sliceIdx_length] at hk'
  simp only [sliceIdx]
  rw [List.getElem_take, List.getElem_drop, List.getElem_range]

theorem mem_sliceIdx {n a b i : Nat} :
    i ∈ sliceIdx n a b ↔ a ≤ i ∧ i < b ∧ i < n := by
  rw [List.mem_iff_getElem]
  constructor
  · rintro ⟨k, hk, rfl⟩
    have hl := hk
    rw [sliceIdx_length] at hl
    rw [sliceIdx_getElem n a b k hk]
    omega
  · rintro ⟨h1, h2, h3⟩
    refine ⟨i - a, ?_, ?_⟩
    · rw [sliceIdx_length]; omega
    · rw [sliceIdx_getElem]; omega

theorem sliceIdx_eq_nil_of_le {n a b : Nat} (h : n ≤ a) : sliceIdx n a b = [] := by
  apply List.eq_nil_iff_forall_not_mem.mpr
  intro i hi
  rw [mem_sliceIdx] at hi
  omega

end SliceLemmas

section CountingLemmas

open GamExperimentalData

/-- Running the counting loop from an arbitrary accumulator adds, at
each cell, the number of samples classified into that cell. -/
theorem foldl_bump_apply (samples : List (Fin 2 × Fin 2)) (init : ContingencyCount)
    (i j : Fin 2) :
    samples.foldl bump init i j
      = init i j + (samples.countP fun s => s.1 == i && s.2 == j : Nat) := by
  induction samples generalizing init with
  | nil => simp
  | cons s t ih =>
    rw [List.foldl_cons, ih, List.countP_cons]
    by_cases h1 : s.1 = i
    · by_cases h2 : s.2 = j
      · simp [bump, h1, h2]
        ring
      · simp [bump, h1, h2]
    · simp [bump, h1]

/-- Every cell of count_frequency is the raw bucket count plus the
configured pseudocount. -/
theorem count_frequency_apply (d : GamExperimentalData)
    (samples : List (Fin 2 × Fin 2)) (i j : Fin 2) :
    d.count_frequency samples i j
      = (samples.countP fun s => s.1 == i && s.2 == j : Nat) + d.pseudocount := by
  rw [count_frequency, foldl_bump_apply]
  simp

/-- The four classification buckets partition the samples. -/
theorem countP_buckets (samples : List (Fin 2 × Fin 2)) :
    (samples.countP fun s => s.1 == 0 && s.2 == 0)
      + (samples.countP fun s => s.1 == 0 && s.2 == 1)
      + (samples.countP fun s => s.1 == 1 && s.2 == 0)
      + (samples.countP fun s => s.1 == 1 && s.2 == 1)
      = samples.length := by
  induction samples with
  | nil => simp
  | cons s t ih =>
    obtain ⟨a, b⟩ := s
    fin_cases a <;> fin_cases b <;>
      simp only [List.countP_cons, List.length_cons] <;>
      simp <;> omega

/-- The cell sum of any count_frequency result is the number of
samples plus four pseudocounts. -/
theorem contSum_count_frequency (d : GamExperimentalData)
    (samples : List (Fin 2 × Fin 2)) :
    contSum (d.count_frequency samples) = samples.length + 4 * d.pseudocount := by
  simp only [contSum, count_frequency_apply]
  have h := countP_buckets samples
  push_cast at h
  linarith

/-- The cell sum of any pair count over the table is the number of
sample rows plus four pseudocounts. -/
theorem contSum_get_location_frequency (d : GamExperimentalData) (loc1 loc2 : Nat) :
    contSum (d.get_location_frequency loc1 loc2)
      = d.segregation.length + 4 * d.pseudocount := by
  rw [get_location_frequency, contSum_count_frequency, List.length_map]

end CountingLemmas

section CacheLemmas

open GamFrequencyMatrix GamExperiment

/-- In-bounds getD of a mapped list. -/
theorem getD_map_of_lt {α β : Type} (l : List α) (f : α → β) (k : Nat) (dflt : β)
    (h : k < l.length) :
    (l.map f).getD k dflt = f l[k] := by
  simp [List.getD_eq_getElem?_getD, List.getElem?_eq_getElem h]

/-- any_empty is false exactly when every cell of the (clamped) region
has non-zero sum. -/
theorem any_empty_eq_false_iff (m : GamFrequencyMatrix) (l1s l1e l2s l2e : Nat) :
    m.any_empty l1s l1e l2s l2e = false
      ↔ ∀ i ∈ sliceIdx m.no_windows l1s l1e, ∀ j ∈ sliceIdx m.no_windows l2s l2e,
          contSum (m.data i j) ≠ 0 := by
  simp [any_empty]

/-- any_empty is true exactly when some cell of the region has zero sum. -/
theorem any_empty_eq_true_iff (m : GamFrequencyMatrix) (l1s l1e l2s l2e : Nat) :
    m.any_empty l1s l1e l2s l2e = true
      ↔ ∃ i ∈ sliceIdx m.no_windows l1s l1e, ∃ j ∈ sliceIdx m.no_windows l2s l2e,
          contSum (m.data i j) = 0 := by
  simp [any_empty]

/-- After cache_freqs writes the freshly computed block, every position
of the written region holds the pair count computed from the table
(assuming the cache is sized to the table, as from_multibam builds it). -/
theorem cache_freqs_calculate_apply (e : GamExperiment)
    (halign : e.freq_matrix.no_windows = e.experimental_data.no_windows)
    {l1s l1e l2s l2e i j : Nat}
    (hi : l1s ≤ i ∧ i < min l1e e.freq_matrix.no_windows)
    (hj : l2s ≤ j ∧ j < min l2e e.freq_matrix.no_windows) :
    (e.freq_matrix.cache_freqs l1s l1e l2s l2e
        (e.calculate_loc_frequency_matrix l1s l1e l2s l2e)).data i j
      = e.experimental_data.get_location_frequency i j := by
  obtain ⟨hi1, hi2⟩ := hi
  obtain ⟨hj1, hj2⟩ := hj
  rw [halign] at hi2 hj2
  simp only [cache_freqs, calculate_loc_frequency_matrix, halign]
  rw [if_pos ⟨hi1, hi2, hj1, hj2⟩]
  have hidx1 : i - l1s < (sliceIdx e.experimental_data.no_windows l1s l1e).length := by
    rw [sliceIdx_length]; omega
  rw [getD_map_of_lt _ _ _ _ hidx1]
  have hidx2 : j - l2s < (sliceIdx e.experimental_data.no_windows l2s l2e).length := by
    rw [sliceIdx_length]; omega
  rw [getD_map_of_lt _ _ _ _ hidx2]
  rw [sliceIdx_getElem _ _ _ _ hidx1, sliceIdx_getElem _ _ _ _ hidx2]
  have e1 : l1s + (i - l1s) = i := by omega
  have e2 : l2s + (j - l2s) = j := by omega
  rw [e1, e2]

/-- After the freshly computed block for a region has been written,
any_empty reports false on that region and on every sub-region,
provided the table has at least one sample row and a nonnegative
pseudocount. -/
theorem any_empty_after_write (e : GamExperiment)
    (halign : e.freq_matrix.no_windows = e.experimental_data.no_windows)
    (hn : 0 < e.experimental_data.segregation.length)
    (hp : 0 ≤ e.experimental_data.pseudocount)
    {l1s l1e l2s l2e a b c d : Nat}
    (ha : l1s ≤ a) (hb : b ≤ l1e) (hc : l2s ≤ c) (hd : d ≤ l2e) :
    (e.freq_matrix.cache_freqs l1s l1e l2s l2e
        (e.calculate_loc_frequency_matrix l1s l1e l2s l2e)).any_empty a b c d = false := by
  rw [any_empty_eq_false_iff]
  intro i hi j hj
  simp only [cache_freqs] at hi hj
  rw [mem_sliceIdx] at hi hj
  rw [cache_freqs_calculate_apply e halign (by omega) (by omega)]
  rw [contSum_get_location_frequency]
  have hpos : (0 : Int) < e.experimental_data.segregation.length := by exact_mod_cast hn
  intro hcontra
  omega

/-- The block read back from the cache right after the computed block
was written is the computed block itself. -/
theorem data_block_after_write (e : GamExperiment)
    (halign : e.freq_matrix.no_windows = e.experimental_data.no_windows)
    (l1s l1e l2s l2e : Nat) :
    (e.freq_matrix.cache_freqs l1s l1e l2s l2e
        (e.calculate_loc_frequency_matrix l1s l1e l2s l2e)).data_block l1s l1e l2s l2e
      = e.calculate_loc_frequency_matrix l1s l1e l2s l2e := by
  have hn : (e.freq_matrix.cache_freqs l1s l1e l2s l2e
      (e.calculate_loc_frequency_matrix l1s l1e l2s l2e)).no_windows
        = e.experimental_data.no_windows := halign
  rw [GamFrequencyMatrix.data_block, hn]
  conv_rhs => rw [calculate_loc_frequency_matrix]
  apply List.map_congr_left
  intro i hi
  apply List.map_congr_left
  intro j hj
  rw [mem_sliceIdx] at hi hj
  exact cache_freqs_calculate_apply e halign (by omega) (by omega)

end CacheLemmas

/-- Python exceptions raised by the experiment-layer methods. -/
inductive PyError where
  | attributeError : PyError
  | keyError : PyError
deriving DecidableEq, Repr

namespace GamExperiment

/-- odds_ratio: np.log(N[0,0]) + np.log(N[1,1]) - np.log(np.log(N[0,1]))
- np.log(N[1,0]), with the floating-point log embedded as Real.log.  The
third term really is a nested log of a log, exactly as in the source. -/
noncomputable def odds_ratio (N : ContingencyCount) : ℝ :=
  Real.log (N 0 0) + Real.log (N 1 1) - Real.log (Real.log (N 0 1)) - Real.log (N 1 0)

/-- get_loc_processed_matrix: picks self.odds_ratio when no method is
given and fetches the frequency block (whose cache write persists), but
then evaluates stored_shape.product() where stored_shape =
freqs.shape[:2] is a Python tuple; tuples have no product attribute, so
every call raises AttributeError before the statistic is ever applied,
and the map/reshape after that line is unreachable. -/
noncomputable def get_loc_processed_matrix (e : GamExperiment) (l1s l1e l2s l2e : Nat)
    (method : Option (ContingencyCount → ℝ)) :
    Except PyError (List (List ℝ)) × GamExperiment :=
  let _method := method.getD odds_ratio
  let r := e.get_loc_frequency_matrix l1s l1e l2s l2e
  (Except.error PyError.attributeError, r.2)

/-- pandas columns.get_loc: position of a column label, KeyError
(modelled as none) when the label is absent. -/
def get_loc (cols : List (String × Nat)) (idx : String × Nat) : Option Nat :=
  cols.findIdx? fun c => c == idx

/-- get_index_processed_matrix: resolve the four coordinate labels to
integer window positions with columns.get_loc and delegate to
get_loc_processed_matrix. -/
noncomputable def get_index_processed_matrix (e : GamExperiment)
    (index1_start index1_stop index2_start index2_stop : String × Nat)
    (method : Option (ContingencyCount → ℝ)) :
    Except PyError (List (List ℝ)) × GamExperiment :=
  match get_loc e.experimental_data.columns index1_start,
        get_loc e.experimental_data.columns index1_stop,
        get_loc e.experimental_data.columns index2_start,
        get_loc e.experimental_data.columns index2_stop with
  | some l1s, some l1e, some l2s, some l2e =>
      e.get_loc_processed_matrix l1s l1e l2s l2e method
  | _, _, _, _ => (Except.error PyError.keyError, e)

/-- get_chrom_processed_matrix: starting_index is the chromosome's
first column label and stopping_index its last one, and the half-open
coordinate-range query runs from the first to the last label used as an
exclusive stop. -/
noncomputable def get_chrom_processed_matrix (e : GamExperiment) (chrom : String)
    (method : Option (ContingencyCount → ℝ)) :
    Except PyError (List (List ℝ)) × GamExperiment :=
  let chromCols := (e.experimental_data.columns.filter fun c => c.1 == chrom).map Prod.snd
  match chromCols with
  | [] => (Except.error PyError.keyError, e)
  | x :: xs =>
    let starting_index := (chrom, x)
    let stopping_index := (chrom, (x :: xs).getLast (List.cons_ne_nil x xs))
    e.get_index_processed_matrix starting_index stopping_index
      starting_index stopping_index method

end GamExperiment

/-- Errors raised by the store lifecycle methods: HDF5FileExistsError
from create_store, IOError (errno 2) from open_store. -/
inductive StoreError where
  | hdf5FileExistsError : StoreError
  | ioError : StoreError
deriving DecidableEq, Repr

/-- The file system as seen through os.path.exists: which paths
currently hold a file. -/
structure FileSystem where
  pathExists : String → Bool

namespace GamExperiment

/-- create_store: refuse to overwrite, else h5py.File(path, w) creates
a fresh file at the path.  The second component is the file system
after the call; on the error path nothing was touched. -/
def create_store (fs : FileSystem) (hdf5_path : String) :
    Except StoreError Unit × FileSystem :=
  if fs.pathExists hdf5_path then
    (Except.error StoreError.hdf5FileExistsError, fs)
  else
    (Except.ok (), ⟨fun q => q == hdf5_path || fs.pathExists q⟩)

/-- open_store: IOError when the path does not exist, else open the
existing file read-write; the file system is unchanged either way. -/
def open_store (fs : FileSystem) (hdf5_path : String) :
    Except StoreError Unit × FileSystem :=
  if fs.pathExists hdf5_path then (Except.ok (), fs)
  else (Except.error StoreError.ioError, fs)

end GamExperiment

section Fixtures

/-- A sample row in which every window is present. -/
def sampleAllPresent : Nat → Fin 2 := fun _ => 1

/-- Segmentation table with two chr1 windows, one sample present
everywhere, pseudocount zero. -/
def edTwoWindows : GamExperimentalData :=
  { columns := [("chr1", 0), ("chr1", 1)]
    segregation := [sampleAllPresent]
    pseudocount := 0 }

/-- A freshly created all-zero frequency cache of the given size. -/
def freshCache (n : Nat) : GamFrequencyMatrix :=
  { no_windows := n, data := fun _ _ => fun _ _ => 0 }

/-- Experiment over edTwoWindows with a fresh cache. -/
def expTwoWindows : GamExperiment :=
  { experimental_data := edTwoWindows, freq_matrix := freshCache 2 }

/-- Degenerate table: one window, no sample rows, pseudocount zero. -/
def edNoSamples : GamExperimentalData :=
  { columns := [("chr1", 0)], segregation := [], pseudocount := 0 }

/-- Experiment over edNoSamples with a fresh cache. -/
def expNoSamples : GamExperiment :=
  { experimental_data := edNoSamples, freq_matrix := freshCache 1 }

end Fixtures

/-- C1 fails as stated on a table with zero sample rows and zero
pseudocount: the block computed and written for range [0,1)x[0,1) is
all zero, so after the first get_loc_frequency_matrix call the very
same range is still reported a miss (any_empty true, get_matrix None),
not a cache hit. -/
theorem getFrequencyMatrix_zero_sample_not_cached :
    ((expNoSamples.get_loc_frequency_matrix 0 1 0 1).2).freq_matrix.any_empty 0 1 0 1 = true
    ∧ ((expNoSamples.get_loc_frequency_matrix 0 1 0 1).2).freq_matrix.get_matrix 0 1 0 1
        = none := by
  constructor
  · decide
  · have h : ((expNoSamples.get_loc_frequency_matrix 0 1 0 1).2).freq_matrix.any_empty
        0 1 0 1 = true := by decide
    simp [GamFrequencyMatrix.get_matrix, h]

/-- C1 (amended): over a table with at least one sample row and a
nonnegative pseudocount, with the cache sized to the table, and for a
row/column range initially reported a miss: the first
get_loc_frequency_matrix call computes the block and writes it to the
cache, the second call returns the identical block served from the
cache with no further state change, and after the first call the same
range and every sub-range contained in it are reported as cache hits. -/
theorem getFrequencyMatrix_deterministic_and_cached (e : GamExperiment)
    (l1s l1e l2s l2e : Nat)
    (halign : e.freq_matrix.no_windows = e.experimental_data.no_windows)
    (hn : 0 < e.experimental_data.segregation.length)
    (hp : 0 ≤ e.experimental_data.pseudocount)
    (hmiss : e.freq_matrix.any_empty l1s l1e l2s l2e = true) :
    (e.get_loc_frequency_matrix l1s l1e l2s l2e).1
        = e.calculate_loc_frequency_matrix l1s l1e l2s l2e
    ∧ ((e.get_loc_frequency_matrix l1s l1e l2s l2e).2).freq_matrix
        = e.freq_matrix.cache_freqs l1s l1e l2s l2e
            (e.calculate_loc_frequency_matrix l1s l1e l2s l2e)
    ∧ ((e.get_loc_frequency_matrix l1s l1e l2s l2e).2).freq_matrix.get_matrix l1s l1e l2s l2e
        = some ((e.get_loc_frequency_matrix l1s l1e l2s l2e).1)
    ∧ ((e.get_loc_frequency_matrix l1s l1e l2s l2e).2).get_loc_frequency_matrix l1s l1e l2s l2e
        = ((e.get_loc_frequency_matrix l1s l1e l2s l2e).1,
           (e.get_loc_frequency_matrix l1s l1e l2s l2e).2)
    ∧ ∀ a b c d : Nat, l1s ≤ a → b ≤ l1e → l2s ≤ c → d ≤ l2e →
        ((e.get_loc_frequency_matrix l1s l1e l2s l2e).2).freq_matrix.any_empty a b c d
          = false := by
  have hgm : e.freq_matrix.get_matrix l1s l1e l2s l2e = none := by
    simp [GamFrequencyMatrix.get_matrix, hmiss]
  have hfirst : e.get_loc_frequency_matrix l1s l1e l2s l2e
      = (e.calculate_loc_frequency_matrix l1s l1e l2s l2e,
         { e with freq_matrix := (e.freq_matrix.cache_freqs l1s l1e l2s l2e
             (e.calculate_loc_frequency_matrix l1s l1e l2s l2e)) }) := by
    simp only [GamExperiment.get_loc_frequency_matrix, hgm]
  have hae : ∀ a b c d : Nat, l1s ≤ a → b ≤ l1e → l2s ≤ c → d ≤ l2e →
      (e.freq_matrix.cache_freqs l1s l1e l2s l2e
          (e.calculate_loc_frequency_matrix l1s l1e l2s l2e)).any_empty a b c d = false :=
    fun a b c d ha hb hc hd => any_empty_after_write e halign hn hp ha hb hc hd
  have hgm2 : (e.freq_matrix.cache_freqs l1s l1e l2s l2e
      (e.calculate_loc_frequency_matrix l1s l1e l2s l2e)).get_matrix l1s l1e l2s l2e
        = some (e.calculate_loc_frequency_matrix l1s l1e l2s l2e) := by
    rw [GamFrequencyMatrix.get_matrix]
    rw [hae l1s l1e l2s l2e le_rfl le_rfl le_rfl le_rfl]
    simp only [Bool.false_eq_true, if_false]
    rw [data_block_after_write e halign]
  rw [hfirst]
  refine ⟨rfl, rfl, hgm2, ?_, fun a b c d ha hb hc hd => hae a b c d ha hb hc hd⟩
  simp only [GamExperiment.get_loc_frequency_matrix, hgm2]

/-- C1 witness: the amended theorem instantiated on the two-window,
one-sample experiment with a fresh cache and the full range
[0,2)x[0,2). -/
theorem getFrequencyMatrix_deterministic_and_cached_witness :
    (expTwoWindows.freq_matrix.no_windows = expTwoWindows.experimental_data.no_windows
      ∧ 0 < expTwoWindows.experimental_data.segregation.length
      ∧ 0 ≤ expTwoWindows.experimental_data.pseudocount
      ∧ expTwoWindows.freq_matrix.any_empty 0 2 0 2 = true)
    ∧ ((expTwoWindows.get_loc_frequency_matrix 0 2 0 2).1
        = expTwoWindows.calculate_loc_frequency_matrix 0 2 0 2
      ∧ ((expTwoWindows.get_loc_frequency_matrix 0 2 0 2).2).freq_matrix
          = expTwoWindows.freq_matrix.cache_freqs 0 2 0 2
              (expTwoWindows.calculate_loc_frequency_matrix 0 2 0 2)
      ∧ ((expTwoWindows.get_loc_frequency_matrix 0 2 0 2).2).freq_matrix.get_matrix 0 2 0 2
          = some ((expTwoWindows.get_loc_frequency_matrix 0 2 0 2).1)
      ∧ ((expTwoWindows.get_loc_frequency_matrix 0 2 0 2).2).get_loc_frequency_matrix 0 2 0 2
          = ((expTwoWindows.get_loc_frequency_matrix 0 2 0 2).1,
             (expTwoWindows.get_loc_frequency_matrix 0 2 0 2).2)
      ∧ ∀ a b c d : Nat, 0 ≤ a → b ≤ 2 → 0 ≤ c → d ≤ 2 →
          ((expTwoWindows.get_loc_frequency_matrix 0 2 0 2).2).freq_matrix.any_empty a b c d
            = false) :=
  ⟨⟨by decide, by decide, by decide, by decide⟩,
   getFrequencyMatrix_deterministic_and_cached expTwoWindows 0 2 0 2
     (by decide) (by decide) (by decide) (by decide)⟩

/-- C2: get_matrix returns the stored block exactly when every 2x2
cell of the (clamped) region has non-zero sum; otherwise — in
particular whenever even one cell of the region is all zero — the
whole region is a miss and the result is the sentinel None, with no
exception raised. -/
theorem get_matrix_hit_iff_no_zero_sum (m : GamFrequencyMatrix) (l1s l1e l2s l2e : Nat) :
    (m.get_matrix l1s l1e l2s l2e = some (m.data_block l1s l1e l2s l2e)
        ↔ ∀ i ∈ sliceIdx m.no_windows l1s l1e, ∀ j ∈ sliceIdx m.no_windows l2s l2e,
            contSum (m.data i j) ≠ 0)
    ∧ (m.get_matrix l1s l1e l2s l2e = none
        ↔ ∃ i ∈ sliceIdx m.no_windows l1s l1e, ∃ j ∈ sliceIdx m.no_windows l2s l2e,
            contSum (m.data i j) = 0)
    ∧ ((∃ i ∈ sliceIdx m.no_windows l1s l1e, ∃ j ∈ sliceIdx m.no_windows l2s l2e,
            ∀ u v : Fin 2, m.data i j u v = 0)
        → m.get_matrix l1s l1e l2s l2e = none) := by
  by_cases h : m.any_empty l1s l1e l2s l2e = true
  · have hnone : m.get_matrix l1s l1e l2s l2e = none := by
      simp [GamFrequencyMatrix.get_matrix, h]
    have hzero := (any_empty_eq_true_iff m l1s l1e l2s l2e).mp h
    refine ⟨?_, ?_, fun _ => hnone⟩
    · constructor
      · intro hsome
        rw [hnone] at hsome
        exact absurd hsome (by simp)
      · intro hall
        obtain ⟨i, hi, j, hj, hz⟩ := hzero
        exact absurd hz (hall i hi j hj)
    · simp [hnone, hzero]
  · have hfalse : m.any_empty l1s l1e l2s l2e = false := by
      simpa using h
    have hsome : m.get_matrix l1s l1e l2s l2e = some (m.data_block l1s l1e l2s l2e) := by
      simp [GamFrequencyMatrix.get_matrix, hfalse]
    have hall := (any_empty_eq_false_iff m l1s l1e l2s l2e).mp hfalse
    refine ⟨⟨fun _ => hall, fun _ => hsome⟩, ?_, ?_⟩
    · simp only [hsome]
      constructor
      · intro habs
        exact absurd habs (by simp)
      · rintro ⟨i, hi, j, hj, hz⟩
        exact absurd hz (hall i hi j hj)
    · rintro ⟨i, hi, j, hj, hz⟩
      have : contSum (m.data i j) = 0 := by
        simp [contSum, hz]
      exact absurd this (hall i hi j hj)

/-- C2 witness: the characterization instantiated on a concrete fresh
(all-zero) one-window cache, where the region [0,1)x[0,1) contains an
all-zero cell and get_matrix returns the None sentinel. -/
theorem get_matrix_hit_iff_no_zero_sum_witness :
    ((freshCache 1).get_matrix 0 1 0 1 = some ((freshCache 1).data_block 0 1 0 1)
        ↔ ∀ i ∈ sliceIdx (freshCache 1).no_windows 0 1,
            ∀ j ∈ sliceIdx (freshCache 1).no_windows 0 1,
              contSum ((freshCache 1).data i j) ≠ 0)
    ∧ ((freshCache 1).get_matrix 0 1 0 1 = none
        ↔ ∃ i ∈ sliceIdx (freshCache 1).no_windows 0 1,
            ∃ j ∈ sliceIdx (freshCache 1).no_windows 0 1,
              contSum ((freshCache 1).data i j) = 0)
    ∧ ((∃ i ∈ sliceIdx (freshCache 1).no_windows 0 1,
            ∃ j ∈ sliceIdx (freshCache 1).no_windows 0 1,
              ∀ u v : Fin 2, (freshCache 1).data i j u v = 0)
        → (freshCache 1).get_matrix 0 1 0 1 = none) :=
  get_matrix_hit_iff_no_zero_sum (freshCache 1) 0 1 0 1

/-- C3: contrary to the claimed layout, a single sample with both
windows present is tallied at cell [1][1] and a single sample with
neither window present at cell [0][0]: counts[s[0]][s[1]] += 1 indexes
by the raw presence values, so [0][0] holds the neither-present count
and [1][1] the both-present count — the reverse of the documented
[[both, onlyA],[onlyB, neither]] layout. -/
theorem count_frequency_layout_eval :
    edNoSamples.count_frequency [((1 : Fin 2), (1 : Fin 2))] 0 0 = 0
    ∧ edNoSamples.count_frequency [((1 : Fin 2), (1 : Fin 2))] 1 1 = 1
    ∧ edNoSamples.count_frequency [((0 : Fin 2), (0 : Fin 2))] 0 0 = 1
    ∧ edNoSamples.count_frequency [((0 : Fin 2), (0 : Fin 2))] 1 1 = 0 := by
  decide

/-- C4: every call of get_loc_processed_matrix raises AttributeError
(stored_shape = freqs.shape[:2] is a Python tuple and tuples have no
product attribute) instead of returning the float statistic matrix; no
call ever reaches the statistic application. -/
theorem get_loc_processed_matrix_attribute_error (e : GamExperiment)
    (l1s l1e l2s l2e : Nat) (method : Option (ContingencyCount → ℝ)) :
    (e.get_loc_processed_matrix l1s l1e l2s l2e method).1
      = Except.error PyError.attributeError := rfl

/-- C5: every cell of the returned contingency count is the raw bucket
count for its presence pattern plus the configured pseudocount, and
with pseudocount zero the four cells sum to the number of samples. -/
theorem count_frequency_pseudocount_invariant (d : GamExperimentalData)
    (samples : List (Fin 2 × Fin 2)) :
    (∀ i j : Fin 2, d.count_frequency samples i j
        = (samples.countP fun s => s.1 == i && s.2 == j : Nat) + d.pseudocount)
    ∧ (d.pseudocount = 0 → contSum (d.count_frequency samples) = samples.length) := by
  refine ⟨fun i j => count_frequency_apply d samples i j, fun h0 => ?_⟩
  rw [contSum_count_frequency, h0]
  ring

/-- C5 witness: the invariant instantiated at a zero-pseudocount table
and the two concrete samples (1,1) and (0,1). -/
theorem count_frequency_pseudocount_invariant_witness :
    (∀ i j : Fin 2, edNoSamples.count_frequency [(1, 1), (0, 1)] i j
        = ([((1 : Fin 2), (1 : Fin 2)), (0, 1)].countP
            fun s => s.1 == i && s.2 == j : Nat) + edNoSamples.pseudocount)
    ∧ (edNoSamples.pseudocount = 0
        → contSum (edNoSamples.count_frequency [(1, 1), (0, 1)])
            = ([((1 : Fin 2), (1 : Fin 2)), (0, 1)] : List (Fin 2 × Fin 2)).length) :=
  count_frequency_pseudocount_invariant edNoSamples [(1, 1), (0, 1)]

/-- C6: the pair counts for (A,B) and (B,A) are transposes of each
other: the only-A and only-B cells swap while the both-present and
neither-present diagonal cells stay fixed. -/
theorem get_location_frequency_transpose (d : GamExperimentalData)
    (loc1 loc2 : Nat) (i j : Fin 2) :
    d.get_location_frequency loc1 loc2 i j = d.get_location_frequency loc2 loc1 j i := by
  simp only [GamExperimentalData.get_location_frequency, count_frequency_apply,
    List.countP_map]
  have hcomp : ((fun s : Fin 2 × Fin 2 => s.1 == i && s.2 == j)
        ∘ fun row : Nat → Fin 2 => (row loc1, row loc2))
      = ((fun s : Fin 2 × Fin 2 => s.1 == j && s.2 == i)
        ∘ fun row : Nat → Fin 2 => (row loc2, row loc1)) := by
    funext row
    exact Bool.and_comm _ _
  rw [hcomp]

/-- A file system on which one store file already exists. -/
def fsWithExisting : FileSystem := ⟨fun s => s == "experiment.hdf5"⟩

/-- C7: create_store at an existing path fails with HDF5FileExistsError
and leaves the file system unchanged; open_store at a missing path
fails with IOError (errno 2) and also leaves the file system
unchanged. -/
theorem store_create_open_errors (fs : FileSystem) (p q : String)
    (hex : fs.pathExists p = true) (hmiss : fs.pathExists q = false) :
    GamExperiment.create_store fs p
        = (Except.error StoreError.hdf5FileExistsError, fs)
    ∧ GamExperiment.open_store fs q = (Except.error StoreError.ioError, fs) := by
  constructor
  · simp [GamExperiment.create_store, hex]
  · simp [GamExperiment.open_store, hmiss]

/-- C7 witness: the error behaviour at a concrete file system holding
experiment.hdf5, creating at the held path and opening a missing one. -/
theorem store_create_open_errors_witness :
    (fsWithExisting.pathExists "experiment.hdf5" = true
      ∧ fsWithExisting.pathExists "other.hdf5" = false)
    ∧ (GamExperiment.create_store fsWithExisting "experiment.hdf5"
        = (Except.error StoreError.hdf5FileExistsError, fsWithExisting)
      ∧ GamExperiment.open_store fsWithExisting "other.hdf5"
        = (Except.error StoreError.ioError, fsWithExisting)) :=
  ⟨⟨by decide, by decide⟩,
   store_create_open_errors fsWithExisting "experiment.hdf5" "other.hdf5"
     (by decide) (by decide)⟩

/-- C8: on the experiment whose chromosome chr1 spans the two windows
at starts 0 and 1, the code resolves the starting label to position 0
and the stopping label (the chromosome's last window) to position 1,
so the delegated half-open range [0,1) covers only one of the two chr1
windows — the last window is excluded — and the delegated
get_loc_processed_matrix call then raises AttributeError. -/
theorem get_chrom_processed_matrix_excludes_last_window :
    ((expTwoWindows.experimental_data.columns.filter fun c => c.1 == "chr1").map Prod.snd
        = [0, 1])
    ∧ GamExperiment.get_loc expTwoWindows.experimental_data.columns ("chr1", 0) = some 0
    ∧ GamExperiment.get_loc expTwoWindows.experimental_data.columns ("chr1", 1) = some 1
    ∧ expTwoWindows.experimental_data.no_windows = 2
    ∧ (expTwoWindows.get_loc_frequency_matrix 0 1 0 1).1.length = 1
    ∧ (expTwoWindows.get_chrom_processed_matrix "chr1" none).1
        = Except.error PyError.attributeError := by
  refine ⟨by decide, by decide, by decide, by decide, by decide, rfl⟩

/-- C9 fails as stated: requesting the fully out-of-range region
[5,7)x[5,7) on a two-window cache raises nothing and is not rejected —
the slices clamp to nothing, any_empty vacuously reports false, and
get_matrix silently returns the empty block as a hit. -/
theorem get_matrix_out_of_range_silent :
    (freshCache 2).any_empty 5 7 5 7 = false
    ∧ (freshCache 2).get_matrix 5 7 5 7 = some [] := by
  constructor
  · decide
  · have h : (freshCache 2).any_empty 5 7 5 7 = false := by decide
    simp [GamFrequencyMatrix.get_matrix, h, GamFrequencyMatrix.data_block,
      sliceIdx_eq_nil_of_le (by decide : (freshCache 2).no_windows ≤ 5)]

/-- C9 (amended): a requested range outside [0, no_windows) is not
rejected with an error; the slicing clamps it silently, and a row
range lying entirely at or beyond no_windows yields the empty block,
which get_matrix reports as a hit. -/
theorem get_matrix_out_of_range_clamped (m : GamFrequencyMatrix)
    (l1s l1e l2s l2e : Nat) (h : m.no_windows ≤ l1s) :
    m.any_empty l1s l1e l2s l2e = false
    ∧ m.get_matrix l1s l1e l2s l2e = some [] := by
  have hs : sliceIdx m.no_windows l1s l1e = [] := sliceIdx_eq_nil_of_le h
  have hae : m.any_empty l1s l1e l2s l2e = false := by
    simp [GamFrequencyMatrix.any_empty, hs]
  refine ⟨hae, ?_⟩
  simp [GamFrequencyMatrix.get_matrix, hae, GamFrequencyMatrix.data_block, hs]

/-- C9 witness: the clamping behaviour at a three-window cache with the
fully out-of-range row range [10,12). -/
theorem get_matrix_out_of_range_clamped_witness :
    ((freshCache 3).no_windows ≤ 10)
    ∧ ((freshCache 3).any_empty 10 12 0 2 = false
      ∧ (freshCache 3).get_matrix 10 12 0 2 = some []) :=
  ⟨by decide, get_matrix_out_of_range_clamped (freshCache 3) 10 12 0 2 (by decide)⟩

/-- C10: with at least one sample row, 0/1 presence values, and a
nonnegative pseudocount, every contingency matrix produced for a
window pair has cell sum samples + 4*pseudocount, which is positive,
so every block get_loc_frequency_matrix writes consists only of
non-zero-sum cells, and after any call the requested region is
reported non-empty (the zero sentinel never invalidates a computed
block). -/
theorem computed_blocks_nonzero_sum (e : GamExperiment)
    (halign : e.freq_matrix.no_windows = e.experimental_data.no_windows)
    (hn : 0 < e.experimental_data.segregation.length)
    (hp : 0 ≤ e.experimental_data.pseudocount)
    (l1s l1e l2s l2e : Nat) :
    (∀ loc1 loc2 : Nat,
        contSum (e.experimental_data.get_location_frequency loc1 loc2)
            = e.experimental_data.segregation.length
              + 4 * e.experimental_data.pseudocount
        ∧ 0 < contSum (e.experimental_data.get_location_frequency loc1 loc2))
    ∧ ((e.get_loc_frequency_matrix l1s l1e l2s l2e).2).freq_matrix.any_empty
        l1s l1e l2s l2e = false := by
  have hlen : (0 : Int) < e.experimental_data.segregation.length := by exact_mod_cast hn
  constructor
  · intro loc1 loc2
    have hsum := contSum_get_location_frequency e.experimental_data loc1 loc2
    refine ⟨hsum, ?_⟩
    rw [hsum]
    omega
  · cases hgm : e.freq_matrix.get_matrix l1s l1e l2s l2e with
    | some blk =>
        simp only [GamExperiment.get_loc_frequency_matrix, hgm]
        by_cases hae : e.freq_matrix.any_empty l1s l1e l2s l2e = true
        · rw [GamFrequencyMatrix.get_matrix] at hgm
          simp [hae] at hgm
        · simpa using hae
    | none =>
        simp only [GamExperiment.get_loc_frequency_matrix, hgm]
        exact any_empty_after_write e halign hn hp le_rfl le_rfl le_rfl le_rfl

/-- C10 witness: the invariant instantiated on the two-window,
one-sample experiment with a fresh cache and the region [0,1)x[0,2). -/
theorem computed_blocks_nonzero_sum_witness :
    (expTwoWindows.freq_matrix.no_windows = expTwoWindows.experimental_data.no_windows
      ∧ 0 < expTwoWindows.experimental_data.segregation.length
      ∧ 0 ≤ expTwoWindows.experimental_data.pseudocount)
    ∧ ((∀ loc1 loc2 : Nat,
          contSum (expTwoWindows.experimental_data.get_location_frequency loc1 loc2)
              = expTwoWindows.experimental_data.segregation.length
                + 4 * expTwoWindows.experimental_data.pseudocount
          ∧ 0 < contSum (expTwoWindows.experimental_data.get_location_frequency loc1 loc2))
      ∧ ((expTwoWindows.get_loc_frequency_matrix 0 1 0 2).2).freq_matrix.any_empty
          0 1 0 2 = false) :=
  ⟨⟨by decide, by decide, by decide⟩,
   computed_blocks_nonzero_sum expTwoWindows (by decide) (by decide) (by decide) 0 1 0 2⟩
